import Mathlib

/-!
Verification of the Yuzu progressive-disclosure queue engine.

The definitions below are a shallow embedding of the repository's
frontend logic:

* `SwipeInterface` — the swipe state machine (`SwipeInterface.tsx`):
  cursor position (`currentIndex`, `currentLevel`), the programmatic
  exit-animation coordinates (`exitX`, `exitY`,
  `previousExitDirection`), and the handlers `handlePass`,
  `handleNext`, `handleSuperlike`, `handleAnimationComplete`.
  Invocations of the `onSuperlike` parent callback are recorded in an
  event trace (`saves`).

* `SwipeInterface.CacheState` — the summary cache of the same
  component: the `summaries` map, the `loading` flag, and the async
  `fetchSummary` split at its `await` point into a synchronous start
  phase and a resolution phase, with issued-but-unanswered network
  requests tracked in `inFlight`.  `prefetchWrite` is the cache write
  performed by `prefetchInitialSummaries`.

* `Home` — the favorites persistence of `page.tsx`
  (`handleSuperlike`): localStorage-backed saved list, duplicate
  detection, toast notifications and confetti events.

* `Chat` — the conversation log of `ChatWindow.tsx`
  (`handleSendMessage` plus the localStorage persist/load effects).

JavaScript `Map`s are modelled as association lists accessed through
`mget` / `mset`; JS string truthiness (`if (x)`) is modelled by
`truthy`.
-/

/-- `Paper` record from `lib/types.ts`. -/
structure Paper where
  id : String
  title : String
  authors : List String
  abstract : String
  published : String
  pdf_url : String
  arxiv_url : String
  categories : List String
deriving DecidableEq

/-- `PaperSummary` record from `lib/types.ts`: optional text per level. -/
structure PaperSummary where
  level1 : Option String := none
  level2 : Option String := none
  level3 : Option String := none
deriving DecidableEq

/-- Lookup in an association list, modelling JS `Map.get` /
object-key access (`undefined` becomes `none`). -/
def mget {α : Type} : List (String × α) → String → Option α
  | [], _ => none
  | (k', v) :: rest, k => if k' = k then some v else mget rest k

/-- In-place update of an association list, modelling JS `Map.set`. -/
def mset {α : Type} : List (String × α) → String → α → List (String × α)
  | [], k, v => [(k, v)]
  | (k', v') :: rest, k, v =>
      if k' = k then (k, v) :: rest else (k', v') :: mset rest k v

/-- JS truthiness of an optional string: `undefined`, `null` and `""`
are falsy. -/
def truthy : Option String → Bool
  | none => false
  | some s => s ≠ ""

theorem mget_mset_self {α : Type} (m : List (String × α)) (k : String) (v : α) :
    mget (mset m k v) k = some v := by
  induction m with
  | nil => simp [mget, mset]
  | cons hd tl ih =>
      obtain ⟨k', v'⟩ := hd
      by_cases h : k' = k
      · simp [mget, mset, h]
      · simp [mget, mset, h, ih]

theorem mget_mset_other {α : Type} (m : List (String × α)) (k k' : String) (v : α)
    (h : k' ≠ k) : mget (mset m k v) k' = mget m k' := by
  induction m with
  | nil =>
      have hk : ¬ k = k' := fun hh => h hh.symm
      simp [mget, mset, hk]
  | cons hd tl ih =>
      obtain ⟨k0, v0⟩ := hd
      by_cases h0 : k0 = k
      · subst h0
        have hk : ¬ k0 = k' := fun hh => h hh.symm
        simp [mget, mset, hk]
      · simp only [mset, if_neg h0, mget]
        by_cases h1 : k0 = k'
        · simp [h1]
        · simp [h1, ih]

namespace SwipeInterface

/-- `ExitDirection` from `SwipeInterface.tsx` (`'left' | 'right'`);
the `null` case is modelled as `Option ExitDirection`. -/
inductive ExitDirection
  | left
  | right
deriving DecidableEq

/-- The transition-controller state of the `SwipeInterface` component:
the React state hooks `currentIndex`, `currentLevel`, `exitX`,
`exitY`, `previousExitDirection`, plus `saves`, the trace of
`onSuperlike(paper, level)` callback invocations (paper id and level,
oldest first). -/
structure SwipeState where
  currentIndex : Nat
  currentLevel : Nat
  exitX : Option Int
  exitY : Option Int
  previousExitDirection : Option ExitDirection
  saves : List (String × Nat)
deriving DecidableEq

/-- `papers[currentIndex]` — the current paper, `undefined` past the
end of the queue. -/
def currentPaper (papers : List Paper) (s : SwipeState) : Option Paper :=
  papers[s.currentIndex]?

/-- Record an `onSuperlike(paper, level)` callback invocation. -/
def emitSave (s : SwipeState) (p : Paper) (lvl : Nat) : SwipeState :=
  { s with saves := s.saves ++ [(p.id, lvl)] }

/-- `handlePass`: if `currentIndex >= papers.length - 1`, no-op;
otherwise trigger the programmatic exit animation to the left
(`exitX := -400`, `exitY := 0`, direction `left`).  The cursor is not
touched here. -/
def handlePass (papers : List Paper) (s : SwipeState) : SwipeState :=
  if (s.currentIndex : Int) ≥ (papers.length : Int) - 1 then s
  else { s with exitX := some (-400), exitY := some 0,
                previousExitDirection := some ExitDirection.left }

/-- `handleNext`: below level 3 trigger the exit animation to the
right; at level 3 invoke `onSuperlike` for the current paper (if any)
and fall through to `handlePass`. -/
def handleNext (papers : List Paper) (s : SwipeState) : SwipeState :=
  if s.currentLevel < 3 then
    { s with exitX := some 400, exitY := some 0,
             previousExitDirection := some ExitDirection.right }
  else
    handlePass papers
      (match currentPaper papers s with
       | some p => emitSave s p s.currentLevel
       | none => s)

/-- `handleSuperlike`: no-op without a current paper; otherwise invoke
`onSuperlike` and commit immediately — `currentLevel + 1` below
level 3, else `currentIndex + 1` with `currentLevel := 1`. -/
def handleSuperlike (papers : List Paper) (s : SwipeState) : SwipeState :=
  match currentPaper papers s with
  | none => s
  | some p =>
      let s' := emitSave s p s.currentLevel
      if s.currentLevel < 3 then
        { s' with currentLevel := s.currentLevel + 1 }
      else
        { s' with currentIndex := s.currentIndex + 1, currentLevel := 1 }

/-- `handleAnimationComplete(direction)`: `left` commits
`currentIndex + 1, currentLevel := 1`; `right` commits
`currentLevel + 1` below level 3 and `currentIndex + 1,
currentLevel := 1` at level 3; then the exit coordinates are reset. -/
def handleAnimationComplete (s : SwipeState) (direction : Option ExitDirection) :
    SwipeState :=
  let s' :=
    match direction with
    | some ExitDirection.left =>
        { s with currentIndex := s.currentIndex + 1, currentLevel := 1 }
    | some ExitDirection.right =>
        if s.currentLevel < 3 then
          { s with currentLevel := s.currentLevel + 1 }
        else
          { s with currentIndex := s.currentIndex + 1, currentLevel := 1 }
    | none => s
  { s' with exitX := none, exitY := none }

/-- The user-input alphabet of the component: the three logical
actions plus the animation-completion signal from the card. -/
inductive Input
  | pass
  | next
  | superlike
  | animationComplete (d : Option ExitDirection)
deriving DecidableEq

/-- One handler invocation. -/
def step (papers : List Paper) (s : SwipeState) : Input → SwipeState
  | Input.pass => handlePass papers s
  | Input.next => handleNext papers s
  | Input.superlike => handleSuperlike papers s
  | Input.animationComplete d => handleAnimationComplete s d

/-- A sequence of handler invocations, oldest first. -/
def run (papers : List Paper) (s : SwipeState) : List Input → SwipeState
  | [] => s
  | i :: rest => run papers (step papers s i) rest

/-- The component's initial state (`useState(0)`, `useState(1)`,
exit coordinates `null`). -/
def initState : SwipeState :=
  { currentIndex := 0, currentLevel := 1, exitX := none, exitY := none,
    previousExitDirection := none, saves := [] }

/-- The Cursor of the spec: `(index, level)`. -/
def cursorOf (s : SwipeState) : Nat × Nat :=
  (s.currentIndex, s.currentLevel)

/-- The spec's Cursor invariant: `0 ≤ index ≤ len(Queue)` (the lower
bound is implicit in `Nat`) and `level ∈ {1,2,3}`. -/
def invariant (papers : List Paper) (s : SwipeState) : Prop :=
  s.currentIndex ≤ papers.length ∧ 1 ≤ s.currentLevel ∧ s.currentLevel ≤ 3

instance (papers : List Paper) (s : SwipeState) : Decidable (invariant papers s) := by
  unfold invariant
  infer_instance

/-- Delivery discipline on an input sequence: each
`AnimationComplete` signal arrives while an item is still active
(`currentIndex < papers.length`). -/
def validSeq (papers : List Paper) : SwipeState → List Input → Bool
  | _, [] => true
  | s, i :: rest =>
      (match i with
       | Input.animationComplete (some _) => decide (s.currentIndex < papers.length)
       | _ => true)
      && validSeq papers (step papers s i) rest

/-- The summary-cache state of the `SwipeInterface` component: the
`summaries` map (`Map<paperId, Partial<PaperSummary>>`), the global
`loading` flag, and `inFlight`, the multiset (as a list) of
`paperAPI.summarize` requests that have been issued but not yet
answered — this last field models the network, not a React hook. -/
structure CacheState where
  summaries : List (String × PaperSummary)
  loading : Bool
  inFlight : List (String × Nat)
deriving DecidableEq

/-- `cached[`level${level}`]` access on a possibly-missing cache
entry. -/
def getLevel (o : Option PaperSummary) (lvl : Nat) : Option String :=
  match o with
  | none => none
  | some ps =>
      match lvl with
      | 1 => ps.level1
      | 2 => ps.level2
      | 3 => ps.level3
      | _ => none

/-- `{...paperSummaries, [`level${level}`]: summary}` — merge one
level into an entry, preserving the other levels. -/
def setLevel (ps : PaperSummary) (lvl : Nat) (txt : String) : PaperSummary :=
  match lvl with
  | 1 => { ps with level1 := some txt }
  | 2 => { ps with level2 := some txt }
  | 3 => { ps with level3 := some txt }
  | _ => ps

/-- Outcome of the synchronous prefix of `fetchSummary` (everything up
to the `await paperAPI.summarize(...)`). -/
inductive FetchOutcome
  | cachedHit
  | validationError
  | requested
deriving DecidableEq

/-- The synchronous prefix of `fetchSummary(paper, level)`:
if `cached && cached[levelN]` is truthy, return early; otherwise
`setLoading(true)`, then `if (!paper.id) throw` — the throw is caught
by the local `catch` and `finally setLoading(false)` runs, all before
any network interaction — else issue the `summarize` request and
suspend at the `await`. -/
def fetchSummaryStart (c : CacheState) (p : Paper) (lvl : Nat) :
    CacheState × FetchOutcome :=
  if truthy (getLevel (mget c.summaries p.id) lvl) then (c, FetchOutcome.cachedHit)
  else if p.id = "" then ({ c with loading := false }, FetchOutcome.validationError)
  else ({ c with loading := true, inFlight := c.inFlight ++ [(p.id, lvl)] },
        FetchOutcome.requested)

/-- Remove one answered request from the in-flight list. -/
def removeFirst : List (String × Nat) → (String × Nat) → List (String × Nat)
  | [], _ => []
  | x :: rest, y => if x = y then rest else x :: removeFirst rest y

/-- The continuation of `fetchSummary` after the `await` resolves:
on success merge the summary into the paper's cache entry
(`updated.get(paper.id) || {}` spread with the new level); on failure
the cache is left untouched ("Don't cache failed summaries", no
fallback content); `finally setLoading(false)` in both cases. -/
def fetchSummaryResolve (c : CacheState) (p : Paper) (lvl : Nat)
    (result : Except String String) : CacheState :=
  let c0 := { c with inFlight := removeFirst c.inFlight (p.id, lvl) }
  match result with
  | Except.ok summary =>
      { c0 with
        summaries :=
          mset c0.summaries p.id
            (setLevel ((mget c0.summaries p.id).getD {}) lvl summary),
        loading := false }
  | Except.error _ => { c0 with loading := false }

/-- The cache write of `prefetchInitialSummaries`: for each of the
first five papers whose id has a truthy entry in the batch result
map, `updated.set(paper.id, { level1: batchSummaries[paper.id] })` —
a whole-entry replacement, not a merge. -/
def prefetchWrite (papers : List Paper) (batch : List (String × String))
    (summaries : List (String × PaperSummary)) : List (String × PaperSummary) :=
  (papers.take 5).foldl
    (fun m p =>
      match mget batch p.id with
      | some txt =>
          if txt ≠ "" then mset m p.id { level1 := some txt } else m
      | none => m)
    summaries

end SwipeInterface

namespace Home

/-- `SavedPaper` from `lib/types.ts`: a `Paper` together with
`savedAt`, `bibtex` and `currentLevel`. -/
structure SavedPaper where
  paper : Paper
  savedAt : Nat
  bibtex : String
  currentLevel : Nat
deriving DecidableEq

/-- `SavedPaper extends Paper`, so `p.id` reads the embedded paper's
id. -/
def SavedPaper.id (sp : SavedPaper) : String :=
  sp.paper.id

/-- Toast severities from `Toast.tsx`. -/
inductive ToastType
  | success
  | error
  | info
deriving DecidableEq

/-- The persistence-relevant state of `page.tsx`: the
`yuzu_favorites` localStorage collection, the toast trace, the number
of `yuzu:favorite-added` events dispatched, and the two confetti
counters (first-save celebration vs. regular). -/
structure HomeState where
  favorites : List SavedPaper
  toasts : List (String × ToastType)
  favAddedEvents : Nat
  confettiFirst : Nat
  confettiNormal : Nat
deriving DecidableEq

/-- `handleSuperlike(paper, level)` from `page.tsx`.  The awaited
`paperAPI.generateBibtex(paper)` is passed in as `bibtexResult`; a
rejection lands in the surrounding `catch` (error toast, no state
change).  On success: load favorites, no-op with an "Already in
favorites!" info toast when an entry with the same id exists,
otherwise append, persist, dispatch `yuzu:favorite-added`, and fire
the first-save or regular confetti with the matching success toast. -/
def handleSuperlike (st : HomeState) (paper : Paper) (level : Nat)
    (bibtexResult : Except String String) (now : Nat) : HomeState :=
  match bibtexResult with
  | Except.error _ =>
      { st with toasts := st.toasts ++ [("Failed to save paper", ToastType.error)] }
  | Except.ok bibtex =>
      if st.favorites.any (fun p => p.id = paper.id) then
        { st with toasts := st.toasts ++ [("Already in favorites!", ToastType.info)] }
      else
        let savedPaper : SavedPaper :=
          { paper := paper, savedAt := now, bibtex := bibtex, currentLevel := level }
        let updated := st.favorites ++ [savedPaper]
        if updated.length = 1 then
          { st with favorites := updated,
                    favAddedEvents := st.favAddedEvents + 1,
                    confettiFirst := st.confettiFirst + 1,
                    toasts := st.toasts ++
                      [("🎉 First paper saved! Keep going!", ToastType.success)] }
        else
          { st with favorites := updated,
                    favAddedEvents := st.favAddedEvents + 1,
                    confettiNormal := st.confettiNormal + 1,
                    toasts := st.toasts ++
                      [("Paper saved to favorites!", ToastType.success)] }

end Home

namespace Chat

/-- Message roles from `lib/types.ts` (`'user' | 'assistant'`). -/
inductive Role
  | user
  | assistant
deriving DecidableEq

/-- `ChatMessage` from `lib/types.ts`. -/
structure ChatMessage where
  role : Role
  content : String
  timestamp : Nat
deriving DecidableEq

/-- JS `String.prototype.trim()`: strip leading and trailing
whitespace (written out over the character list so that it evaluates
inside the kernel). -/
def jsTrim (s : String) : String :=
  String.mk
    (((s.data.dropWhile Char.isWhitespace).reverse.dropWhile
        Char.isWhitespace).reverse)

/-- The conversation state of `ChatWindow.tsx` for one fixed current
paper: the in-memory `messages` list, the localStorage value under
`yuzu_chat_<paperId>` (`none` = key absent), the `isLoading` flag and
the `error` banner. -/
structure ChatState where
  messages : List ChatMessage
  storage : Option (List ChatMessage)
  isLoading : Bool
  error : Option String
deriving DecidableEq

/-- The persist effect: whenever `messages` changes, write it to
localStorage — but only when `messages.length > 0`. -/
def persistEffect (c : ChatState) : ChatState :=
  if c.messages.length > 0 then { c with storage := some c.messages } else c

/-- The load effect: read the stored history for the current paper,
empty when the key is absent. -/
def loadConversation (c : ChatState) : List ChatMessage :=
  c.storage.getD []

/-- `handleSendMessage` from `ChatWindow.tsx`, run to completion for
one send.  Guard: blank input or `isLoading` is a no-op.  Otherwise
the trimmed user message is appended optimistically (the persist
effect fires on that commit), the chat API is awaited (`apiResult`),
and on success the assistant reply is appended while on failure the
error is recorded and the append is rolled back via
`prev.slice(0, -1)`; each `setMessages` commit re-runs the persist
effect.  `isLoading` returns to `false` in the `finally`. -/
def handleSendMessage (c : ChatState) (input : String) (now : Nat)
    (apiResult : Except String String) : ChatState :=
  if jsTrim input = "" ∨ c.isLoading then c
  else
    let userMessage : ChatMessage :=
      { role := Role.user, content := jsTrim input, timestamp := now }
    let c1 := persistEffect
      { c with messages := c.messages ++ [userMessage], error := none,
               isLoading := true }
    match apiResult with
    | Except.ok response =>
        let assistantMessage : ChatMessage :=
          { role := Role.assistant, content := response, timestamp := now }
        persistEffect
          { c1 with messages := c1.messages ++ [assistantMessage],
                    isLoading := false }
    | Except.error e =>
        persistEffect
          { c1 with messages := c1.messages.dropLast, error := some e,
                    isLoading := false }

end Chat

/-- A concrete paper used in scenario runs and witnesses. -/
def mkPaper (i t a : String) : Paper :=
  { id := i, title := t, authors := [], abstract := a,
    published := "2024-01-01", pdf_url := "", arxiv_url := "",
    categories := [] }

/-- A two-paper queue. -/
def samplePapers2 : List Paper :=
  [mkPaper "p0" "Paper Zero" "abs0", mkPaper "p1" "Paper One" "abs1"]

/-- A three-paper queue (the spec's `Advance,Advance,Advance`
scenario). -/
def samplePapers3 : List Paper :=
  [mkPaper "p0" "Paper Zero" "abs0", mkPaper "p1" "Paper One" "abs1",
   mkPaper "p2" "Paper Two" "abs2"]

namespace SwipeInterface

/-- A reachable state of the three-paper queue with the cursor at
`(0, 3)` and a pass exit animation in flight: two completed Advance
episodes followed by a Pass. -/
def flightAtLevel3 : SwipeState :=
  run samplePapers3 initState
    [Input.next, Input.animationComplete (some ExitDirection.right),
     Input.next, Input.animationComplete (some ExitDirection.right),
     Input.pass]

theorem cursorOf_handlePass (papers : List Paper) (s : SwipeState) :
    cursorOf (handlePass papers s) = cursorOf s := by
  unfold handlePass
  split <;> rfl

theorem cursorOf_emitSave (s : SwipeState) (p : Paper) (lvl : Nat) :
    cursorOf (emitSave s p lvl) = cursorOf s := rfl

theorem cursorOf_handleNext (papers : List Paper) (s : SwipeState) :
    cursorOf (handleNext papers s) = cursorOf s := by
  unfold handleNext
  split
  · rfl
  · cases h : currentPaper papers s
    · exact cursorOf_handlePass papers s
    · rw [cursorOf_handlePass, cursorOf_emitSave]

theorem index_handlePass (papers : List Paper) (s : SwipeState) :
    (handlePass papers s).currentIndex = s.currentIndex := by
  have h := cursorOf_handlePass papers s
  exact congrArg Prod.fst h

theorem level_handlePass (papers : List Paper) (s : SwipeState) :
    (handlePass papers s).currentLevel = s.currentLevel := by
  have h := cursorOf_handlePass papers s
  exact congrArg Prod.snd h

theorem index_handleNext (papers : List Paper) (s : SwipeState) :
    (handleNext papers s).currentIndex = s.currentIndex := by
  have h := cursorOf_handleNext papers s
  exact congrArg Prod.fst h

theorem level_handleNext (papers : List Paper) (s : SwipeState) :
    (handleNext papers s).currentLevel = s.currentLevel := by
  have h := cursorOf_handleNext papers s
  exact congrArg Prod.snd h

theorem currentPaper_lt_length {papers : List Paper} {s : SwipeState} {p : Paper}
    (h : currentPaper papers s = some p) : s.currentIndex < papers.length := by
  by_contra hge
  have : papers[s.currentIndex]? = none := by
    exact List.getElem?_eq_none (Nat.le_of_not_lt hge)
  rw [currentPaper] at h
  rw [this] at h
  exact Option.noConfusion h

/-- A state already showing the leftward pass exit is a fixed point
of `handlePass`: repeated Pass inputs during the flight rewrite the
same exit coordinates and change nothing. -/
theorem handlePass_fixed (papers : List Paper) (s : SwipeState)
    (hx : s.exitX = some (-400)) (hy : s.exitY = some 0)
    (hd : s.previousExitDirection = some ExitDirection.left) :
    handlePass papers s = s := by
  cases s with
  | mk ci cl ex ey pd sv =>
      simp only [handlePass]
      split
      · rfl
      · simp only at hx hy hd
        rw [hx, hy, hd]

/-- Pass and Advance handler invocations never mutate the cursor. -/
theorem cursor_unchanged_by_pass_next (papers : List Paper) (s : SwipeState)
    (l : List Input) (h : ∀ i ∈ l, i = Input.pass ∨ i = Input.next) :
    cursorOf (run papers s l) = cursorOf s := by
  induction l generalizing s with
  | nil => rfl
  | cons i rest ih =>
      have hi := h i (List.mem_cons_self i rest)
      have hrest : ∀ j ∈ rest, j = Input.pass ∨ j = Input.next :=
        fun j hj => h j (List.mem_cons_of_mem i hj)
      cases hi with
      | inl hp =>
          subst hp
          rw [run, step]
          rw [ih (handlePass papers s) hrest, cursorOf_handlePass]
      | inr hn =>
          subst hn
          rw [run, step]
          rw [ih (handleNext papers s) hrest, cursorOf_handleNext]

theorem run_all_pass_fixed (papers : List Paper) (s : SwipeState)
    (l : List Input) (h : ∀ i ∈ l, i = Input.pass)
    (hx : s.exitX = some (-400)) (hy : s.exitY = some 0)
    (hd : s.previousExitDirection = some ExitDirection.left) :
    run papers s l = s := by
  induction l with
  | nil => rfl
  | cons i rest ih =>
      have hi := h i (List.mem_cons_self i rest)
      subst hi
      rw [run, step, handlePass_fixed papers s hx hy hd]
      exact ih (fun j hj => h j (List.mem_cons_of_mem Input.pass hj))

theorem index_handleAnimationComplete_le (s : SwipeState) (d : Option ExitDirection) :
    (handleAnimationComplete s d).currentIndex ≤ s.currentIndex + 1 := by
  cases d with
  | none => exact Nat.le_succ _
  | some dir =>
      cases dir with
      | left => exact Nat.le_refl _
      | right =>
          simp only [handleAnimationComplete]
          split
          · exact Nat.le_succ _
          · exact Nat.le_refl _

theorem one_le_three : (1:Nat) ≤ 3 := by decide

/-- One handler invocation preserves the Cursor invariant, provided an
`AnimationComplete` signal is only delivered while an item is still
active. -/
theorem invariant_step (papers : List Paper) (s : SwipeState) (i : Input)
    (hInv : invariant papers s)
    (hOk : ∀ d, i = Input.animationComplete (some d) →
      s.currentIndex < papers.length) :
    invariant papers (step papers s i) := by
  obtain ⟨hIdx, hLo, hHi⟩ := hInv
  cases i with
  | pass =>
      exact ⟨by rw [step, index_handlePass]; exact hIdx,
             by rw [step, level_handlePass]; exact hLo,
             by rw [step, level_handlePass]; exact hHi⟩
  | next =>
      exact ⟨by rw [step, index_handleNext]; exact hIdx,
             by rw [step, level_handleNext]; exact hLo,
             by rw [step, level_handleNext]; exact hHi⟩
  | superlike =>
      rw [step]
      unfold handleSuperlike
      cases hp : currentPaper papers s with
      | none => exact ⟨hIdx, hLo, hHi⟩
      | some p =>
          have hlt := currentPaper_lt_length hp
          by_cases h3 : s.currentLevel < 3
          · simp only [h3, if_true]
            exact ⟨hIdx, Nat.le_succ_of_le hLo, Nat.succ_le_of_lt h3⟩
          · simp only [h3, if_false]
            exact ⟨Nat.succ_le_of_lt hlt, Nat.le_refl 1, one_le_three⟩
  | animationComplete d =>
      cases d with
      | none => exact ⟨hIdx, hLo, hHi⟩
      | some dir =>
          have hlt : s.currentIndex < papers.length := hOk dir rfl
          cases dir with
          | left => exact ⟨Nat.succ_le_of_lt hlt, Nat.le_refl 1, one_le_three⟩
          | right =>
              rw [step]
              simp only [handleAnimationComplete]
              by_cases h3 : s.currentLevel < 3
              · simp only [h3, if_true]
                exact ⟨hIdx, Nat.le_succ_of_le hLo, Nat.succ_le_of_lt h3⟩
              · simp only [h3, if_false]
                exact ⟨Nat.succ_le_of_lt hlt, Nat.le_refl 1, one_le_three⟩

/-- Unfolding lemma for `validSeq` on a cons cell. -/
theorem validSeq_cons (papers : List Paper) (s : SwipeState) (i : Input)
    (rest : List Input) :
    validSeq papers s (i :: rest) =
      ((match i with
        | Input.animationComplete (some _) => decide (s.currentIndex < papers.length)
        | _ => true)
       && validSeq papers (step papers s i) rest) := rfl

/-- The Cursor invariant is preserved along any input sequence whose
`AnimationComplete` deliveries respect `validSeq`. -/
theorem invariant_run (papers : List Paper) (s : SwipeState) (l : List Input)
    (hInv : invariant papers s) (hv : validSeq papers s l = true) :
    invariant papers (run papers s l) := by
  induction l generalizing s with
  | nil => exact hInv
  | cons i rest ih =>
      rw [validSeq_cons, Bool.and_eq_true] at hv
      obtain ⟨hok, hrest⟩ := hv
      rw [run]
      refine ih (step papers s i) ?_ hrest
      refine invariant_step papers s i hInv ?_
      intro d hd
      subst hd
      simpa using hok

/-- Any handler invocation that changes `currentIndex` leaves
`currentLevel = 1`. -/
theorem index_change_level_one (papers : List Paper) (t : SwipeState) (i : Input)
    (h : (step papers t i).currentIndex ≠ t.currentIndex) :
    (step papers t i).currentLevel = 1 := by
  cases i with
  | pass => exact absurd (index_handlePass papers t) h
  | next => exact absurd (index_handleNext papers t) h
  | superlike =>
      rw [step] at h ⊢
      unfold handleSuperlike at h ⊢
      cases hp : currentPaper papers t with
      | none =>
          rw [hp] at h
          exact absurd rfl h
      | some p =>
          rw [hp] at h
          by_cases h3 : t.currentLevel < 3
          · simp only [h3, if_true] at h
            exact absurd rfl h
          · simp only [h3, if_false]
  | animationComplete d =>
      cases d with
      | none => exact absurd rfl h
      | some dir =>
          cases dir with
          | left => rfl
          | right =>
              rw [step] at h ⊢
              simp only [handleAnimationComplete] at h ⊢
              by_cases h3 : t.currentLevel < 3
              · simp only [h3, if_true] at h
                exact absurd rfl h
              · simp only [h3, if_false]

end SwipeInterface

namespace SwipeInterface

/-- C1 (counterexample): the claim that `Pass`/`Advance` inputs
received while an exit transition is in flight are dropped is false.
In the reachable state `flightAtLevel3` — cursor `(0, 3)`, pass exit
in flight — an Advance input is not dropped: it invokes the
`onSuperlike` save callback (the save trace grows), so the state
changes. -/
theorem advance_during_flight_not_dropped :
    flightAtLevel3.exitX = some (-400) ∧
    flightAtLevel3.previousExitDirection = some ExitDirection.left ∧
    flightAtLevel3.saves = [] ∧
    (handleNext samplePapers3 flightAtLevel3).saves = [("p0", 3)] ∧
    handleNext samplePapers3 flightAtLevel3 ≠ flightAtLevel3 := by
  refine ⟨rfl, rfl, rfl, by decide, by decide⟩

/-- C1 (amended): while a leftward pass exit is in flight, any
sequence of Pass/Advance handler invocations leaves the Cursor
untouched, the single following `AnimationComplete` advances `index`
by at most 1, and additional Pass inputs (specifically) are exact
no-ops — dropped, not queued. -/
theorem pass_episode_single_advance (papers : List Paper) (s : SwipeState)
    (l lp : List Input) (d : Option ExitDirection)
    (hx : s.exitX = some (-400)) (hy : s.exitY = some 0)
    (hd : s.previousExitDirection = some ExitDirection.left)
    (hl : ∀ i ∈ l, i = Input.pass ∨ i = Input.next)
    (hlp : ∀ i ∈ lp, i = Input.pass) :
    cursorOf (run papers s l) = cursorOf s ∧
    (handleAnimationComplete (run papers s l) d).currentIndex ≤ s.currentIndex + 1 ∧
    run papers s lp = s := by
  have hcur := cursor_unchanged_by_pass_next papers s l hl
  refine ⟨hcur, ?_, run_all_pass_fixed papers s lp hlp hx hy hd⟩
  have hidx : (run papers s l).currentIndex = s.currentIndex :=
    congrArg Prod.fst hcur
  calc (handleAnimationComplete (run papers s l) d).currentIndex
      ≤ (run papers s l).currentIndex + 1 :=
        index_handleAnimationComplete_le (run papers s l) d
    _ = s.currentIndex + 1 := by rw [hidx]

/-- C1 witness: the amended episode property instantiated in the
three-paper queue at the reachable in-flight state `flightAtLevel3`,
with one extra Pass and one extra Advance arriving before the
`AnimationComplete`. -/
theorem pass_episode_single_advance_witness :
    cursorOf (run samplePapers3 flightAtLevel3 [Input.pass, Input.next]) =
      cursorOf flightAtLevel3 ∧
    (handleAnimationComplete
      (run samplePapers3 flightAtLevel3 [Input.pass, Input.next])
      (some ExitDirection.left)).currentIndex ≤ flightAtLevel3.currentIndex + 1 ∧
    run samplePapers3 flightAtLevel3 [Input.pass, Input.pass] = flightAtLevel3 :=
  pass_episode_single_advance samplePapers3 flightAtLevel3
    [Input.pass, Input.next] [Input.pass, Input.pass]
    (some ExitDirection.left) (by decide) (by decide) (by decide)
    (by decide) (by decide)

/-- C2 (counterexample): the Cursor invariant `index ≤ len(Queue)` is
not maintained for every input sequence.  On a two-paper queue, issue
a Pass (exit goes in flight), then six Superlikes — which commit
immediately and exhaust the queue (`index = 2 = len`) — and then
deliver the pending pass `AnimationComplete`: `index` becomes
`3 > len`.  The animation signal here matches the recorded leftward
intent and arrives while the exit is genuinely in flight. -/
theorem cursor_invariant_violation :
    (run samplePapers2 initState
      ([Input.pass] ++ List.replicate 6 Input.superlike ++
       [Input.animationComplete (some ExitDirection.left)])).currentIndex = 3 ∧
    samplePapers2.length = 2 ∧
    ¬ invariant samplePapers2
        (run samplePapers2 initState
          ([Input.pass] ++ List.replicate 6 Input.superlike ++
           [Input.animationComplete (some ExitDirection.left)])) := by
  refine ⟨by decide, by decide, ?_⟩
  intro hinv
  have h3 : (run samplePapers2 initState
      ([Input.pass] ++ List.replicate 6 Input.superlike ++
       [Input.animationComplete (some ExitDirection.left)])).currentIndex ≤ 2 :=
    hinv.1
  revert h3
  decide

/-- C2 (amended): for every state satisfying the Cursor invariant
`index ≤ len(Queue) ∧ level ∈ {1,2,3}` and every input sequence whose
`AnimationComplete` signals are delivered only while an item is still
active (`index < len`), the invariant holds after the run; moreover
any single handler invocation that changes `currentIndex` leaves
`currentLevel = 1`. -/
theorem cursor_invariant_preserved (papers : List Paper) (s : SwipeState)
    (l : List Input) (t : SwipeState) (i : Input)
    (h1 : invariant papers s) (h2 : validSeq papers s l = true)
    (h3 : (step papers t i).currentIndex ≠ t.currentIndex) :
    invariant papers (run papers s l) ∧ (step papers t i).currentLevel = 1 :=
  ⟨invariant_run papers s l h1 h2, index_change_level_one papers t i h3⟩

/-- C2 witness: the invariant run on the two-paper queue for a full
pass episode followed by a superlike, and the level-reset at a
concrete index-changing step (a Superlike at level 3). -/
theorem cursor_invariant_preserved_witness :
    invariant samplePapers2
      (run samplePapers2 initState
        [Input.pass, Input.animationComplete (some ExitDirection.left),
         Input.superlike]) ∧
    (step samplePapers2
      { currentIndex := 0, currentLevel := 3, exitX := none, exitY := none,
        previousExitDirection := none, saves := [] }
      Input.superlike).currentLevel = 1 :=
  cursor_invariant_preserved samplePapers2 initState
    [Input.pass, Input.animationComplete (some ExitDirection.left),
     Input.superlike]
    { currentIndex := 0, currentLevel := 3, exitX := none, exitY := none,
      previousExitDirection := none, saves := [] }
    Input.superlike (by decide) (by decide) (by decide)

end SwipeInterface

namespace SwipeInterface

/-- An Idle state at level 3 on the first paper. -/
def lvl3State : SwipeState :=
  { currentIndex := 0, currentLevel := 3, exitX := none, exitY := none,
    previousExitDirection := none, saves := [] }

/-- C4: at level 3, Save commits the Cursor to `(index+1, 1)`
immediately — the resulting Cursor equals the Cursor after Save
followed by Pass (Pass alone does not move the Cursor), no exit
animation is recorded (the commit is not gated on
`AnimationComplete`), and exactly one save is persisted. -/
theorem save_at_level3_commits_immediately (papers : List Paper) (s : SwipeState)
    (p : Paper) (h3 : s.currentLevel = 3) (hp : currentPaper papers s = some p) :
    cursorOf (handleSuperlike papers s) = (s.currentIndex + 1, 1) ∧
    cursorOf (handlePass papers (handleSuperlike papers s)) =
      cursorOf (handleSuperlike papers s) ∧
    (handleSuperlike papers s).exitX = s.exitX ∧
    (handleSuperlike papers s).exitY = s.exitY ∧
    (handleSuperlike papers s).saves = s.saves ++ [(p.id, 3)] := by
  have hne : ¬ s.currentLevel < 3 := by omega
  unfold handleSuperlike
  rw [hp]
  simp only [hne, if_false]
  refine ⟨rfl, cursorOf_handlePass papers _, rfl, rfl, ?_⟩
  simp [emitSave, h3]

/-- C4 witness: Save at level 3 on the two-paper queue moves the
Cursor to `(1, 1)` with no exit animation recorded. -/
theorem save_at_level3_commits_immediately_witness :
    cursorOf (handleSuperlike samplePapers2 lvl3State) = (1, 1) ∧
    (handleSuperlike samplePapers2 lvl3State).exitX = lvl3State.exitX :=
  ⟨(save_at_level3_commits_immediately samplePapers2 lvl3State
      (mkPaper "p0" "Paper Zero" "abs0") (by decide) (by decide)).1,
   (save_at_level3_commits_immediately samplePapers2 lvl3State
      (mkPaper "p0" "Paper Zero" "abs0") (by decide) (by decide)).2.2.1⟩

/-- C5: at level 3 the Advance handler persists a save of the current
paper and then behaves exactly as Pass; and on a three-paper queue,
three Advance episodes (each completed by its `AnimationComplete`)
leave the Cursor at `(0,2)` then `(0,3)`, and the third one saves
paper 0 and moves the Cursor to item 1, level 1. -/
theorem advance_at_level3_saves_then_passes (papers : List Paper) (s : SwipeState)
    (p : Paper) (h3 : s.currentLevel = 3) (hp : currentPaper papers s = some p) :
    handleNext papers s = handlePass papers (emitSave s p 3) ∧
    cursorOf (run samplePapers3 initState
      [Input.next, Input.animationComplete (some ExitDirection.right)]) = (0, 2) ∧
    cursorOf (run samplePapers3 initState
      [Input.next, Input.animationComplete (some ExitDirection.right),
       Input.next, Input.animationComplete (some ExitDirection.right)]) = (0, 3) ∧
    run samplePapers3 initState
      [Input.next, Input.animationComplete (some ExitDirection.right),
       Input.next, Input.animationComplete (some ExitDirection.right),
       Input.next, Input.animationComplete (some ExitDirection.left)]
      = { currentIndex := 1, currentLevel := 1, exitX := none, exitY := none,
          previousExitDirection := some ExitDirection.left,
          saves := [("p0", 3)] } := by
  have hne : ¬ s.currentLevel < 3 := by omega
  refine ⟨?_, by decide, by decide, by decide⟩
  unfold handleNext
  rw [hp]
  simp only [hne, if_false]
  rw [h3]

/-- C5 witness: the level-3 Advance equation at a concrete Idle
state of the three-paper queue. -/
theorem advance_at_level3_saves_then_passes_witness :
    handleNext samplePapers3 lvl3State =
      handlePass samplePapers3
        (emitSave lvl3State (mkPaper "p0" "Paper Zero" "abs0") 3) :=
  (advance_at_level3_saves_then_passes samplePapers3 lvl3State
    (mkPaper "p0" "Paper Zero" "abs0") (by decide) (by decide)).1

end SwipeInterface

namespace SwipeInterface

/-- The cache before any fetch. -/
def emptyCache : CacheState := { summaries := [], loading := false, inFlight := [] }

/-- A concrete paper for cache scenarios. -/
def paperA : Paper := mkPaper "paperA" "Paper A" "absA"

/-- A paper whose identifier is empty. -/
def paperNoId : Paper := mkPaper "" "No Id" "absN"

/-- C3 (counterexample): nothing marks a `(itemId, level)` key pending
before `fetchSummary` returns, so at-most-one-in-flight fails: two
concurrent `fetchSummary` calls for the same absent key `(paperA, 2)`
both reach the network — after the two synchronous prefixes run, two
requests for that key are in flight at the same instant. -/
theorem duplicate_inflight_requests :
    (fetchSummaryStart emptyCache paperA 2).2 = FetchOutcome.requested ∧
    (fetchSummaryStart (fetchSummaryStart emptyCache paperA 2).1 paperA 2).2
      = FetchOutcome.requested ∧
    ((fetchSummaryStart (fetchSummaryStart emptyCache paperA 2).1 paperA
        2).1.inFlight.count ("paperA", 2)) = 2 := by
  refine ⟨by decide, by decide, by decide⟩

/-- C3 (amended): before the fetch call returns it sets only the
single global `loading` flag — not a per-key pending marker — and
issues exactly one request; a key whose summary is already cached is
never refetched.  Deduplication of concurrent requests for the same
absent key is not provided. -/
theorem fetch_start_behavior (c : CacheState) (p : Paper) (lvl : Nat) :
    (truthy (getLevel (mget c.summaries p.id) lvl) = true →
      fetchSummaryStart c p lvl = (c, FetchOutcome.cachedHit)) ∧
    (truthy (getLevel (mget c.summaries p.id) lvl) = false → p.id ≠ "" →
      fetchSummaryStart c p lvl =
        ({ c with loading := true, inFlight := c.inFlight ++ [(p.id, lvl)] },
         FetchOutcome.requested)) := by
  constructor
  · intro h
    unfold fetchSummaryStart
    simp [h]
  · intro h hid
    unfold fetchSummaryStart
    simp [h, hid]

/-- C3 witness: a fetch for the absent key `(paperA, 2)` sets the
loading flag and issues exactly one request before returning. -/
theorem fetch_start_behavior_witness :
    fetchSummaryStart emptyCache paperA 2 =
      ({ emptyCache with
          loading := true
          inFlight := emptyCache.inFlight ++ [("paperA", 2)] },
       FetchOutcome.requested) :=
  (fetch_start_behavior emptyCache paperA 2).2 (by decide) (by decide)

/-- C6: when the summarize call for an absent key fails, the cache is
left exactly as before (no failed value, no fallback content), and a
subsequent lookup for the same key issues a new fetch rather than
reusing anything. -/
theorem failed_fetch_leaves_absent_retriable (c : CacheState) (p : Paper)
    (lvl : Nat) (e : String)
    (habs : truthy (getLevel (mget c.summaries p.id) lvl) = false)
    (hid : p.id ≠ "") :
    (fetchSummaryStart c p lvl).2 = FetchOutcome.requested ∧
    (fetchSummaryResolve (fetchSummaryStart c p lvl).1 p lvl
      (Except.error e)).summaries = c.summaries ∧
    (fetchSummaryStart
      (fetchSummaryResolve (fetchSummaryStart c p lvl).1 p lvl (Except.error e))
      p lvl).2 = FetchOutcome.requested := by
  refine ⟨?_, ?_, ?_⟩ <;>
    simp [fetchSummaryStart, fetchSummaryResolve, habs, hid]

/-- C6 witness: the failed fetch for `(paperA, 2)` on the empty cache
leaves it empty and the re-request fetches again. -/
theorem failed_fetch_leaves_absent_retriable_witness :
    (fetchSummaryResolve (fetchSummaryStart emptyCache paperA 2).1 paperA 2
      (Except.error "fail")).summaries = emptyCache.summaries ∧
    (fetchSummaryStart
      (fetchSummaryResolve (fetchSummaryStart emptyCache paperA 2).1 paperA 2
        (Except.error "fail"))
      paperA 2).2 = FetchOutcome.requested :=
  ⟨(failed_fetch_leaves_absent_retriable emptyCache paperA 2 "fail"
      (by decide) (by decide)).2.1,
   (failed_fetch_leaves_absent_retriable emptyCache paperA 2 "fail"
      (by decide) (by decide)).2.2⟩

/-- C7: a fetch for a paper with an empty identifier (and no cached
summary for that key) fails with the local validation error before
the remote summarizer is invoked — no request is issued. -/
theorem empty_id_fails_fast_no_network (c : CacheState) (p : Paper) (lvl : Nat)
    (hid : p.id = "")
    (habs : truthy (getLevel (mget c.summaries p.id) lvl) = false) :
    fetchSummaryStart c p lvl =
      ({ c with loading := false }, FetchOutcome.validationError) ∧
    (fetchSummaryStart c p lvl).1.inFlight = c.inFlight := by
  rw [hid] at habs
  unfold fetchSummaryStart
  rw [hid]
  simp [habs]

/-- C7 witness: the empty-identifier fetch on the empty cache fails
locally with no network request. -/
theorem empty_id_fails_fast_no_network_witness :
    fetchSummaryStart emptyCache paperNoId 1 =
      ({ emptyCache with loading := false }, FetchOutcome.validationError) :=
  (empty_id_fails_fast_no_network emptyCache paperNoId 1
    (by decide) (by decide)).1

end SwipeInterface

namespace SwipeInterface

/-- Helper: once the prefetch fold has written the batch value for
`pid`, later iterations either rewrite the same value or touch other
keys. -/
theorem prefetch_fold_preserved (batch : List (String × String)) (pid txt : String)
    (hbatch : mget batch pid = some txt) (htxt : txt ≠ "") (L : List Paper) :
    ∀ m, mget m pid = some ({ level1 := some txt, level2 := none, level3 := none } : PaperSummary) →
      mget (L.foldl
        (fun m p =>
          match mget batch p.id with
          | some t => if t ≠ "" then mset m p.id { level1 := some t } else m
          | none => m) m) pid
        = some ({ level1 := some txt, level2 := none, level3 := none } : PaperSummary) := by
  induction L with
  | nil => intro m hm; exact hm
  | cons q L' ih =>
      intro m hm
      rw [List.foldl_cons]
      apply ih
      by_cases hq : q.id = pid
      · rw [hq, hbatch]
        simp [htxt, mget_mset_self]
      · split
        · split
          · rw [mget_mset_other _ _ _ _ (fun hh => hq hh.symm)]
            exact hm
          · exact hm
        · exact hm

/-- Helper: the prefetch fold writes the batch value for every paper
id occurring in the folded list of papers. -/
theorem prefetch_fold_mem (batch : List (String × String)) (pid txt : String)
    (hbatch : mget batch pid = some txt) (htxt : txt ≠ "") (L : List Paper) :
    pid ∈ L.map Paper.id →
    ∀ m, mget (L.foldl
        (fun m p =>
          match mget batch p.id with
          | some t => if t ≠ "" then mset m p.id { level1 := some t } else m
          | none => m) m) pid
      = some ({ level1 := some txt, level2 := none, level3 := none } : PaperSummary) := by
  induction L with
  | nil => intro h; simp at h
  | cons q L' ih =>
      intro hmem m
      rw [List.foldl_cons]
      by_cases hq : q.id = pid
      · apply prefetch_fold_preserved batch pid txt hbatch htxt L'
        rw [hq, hbatch]
        simp [htxt, mget_mset_self]
      · have hmem' : pid ∈ L'.map Paper.id := by
          rw [List.map_cons, List.mem_cons] at hmem
          cases hmem with
          | inl h => exact absurd h.symm hq
          | inr h => exact h
        exact ih hmem' _

/-- C10: a batch-prefetch write replaces the whole cache entry of any
first-five paper present in the result map with an object holding
only the level-1 summary (previously cached level-2/3 summaries are
discarded), whereas the per-item fetch write merges the new level
into the existing entry, preserving the other levels. -/
theorem prefetch_replaces_fetch_merges (papers : List Paper)
    (batch : List (String × String)) (m : List (String × PaperSummary))
    (pid txt : String) (c : CacheState) (p : Paper) (summary : String)
    (entry : PaperSummary)
    (hmem : pid ∈ (papers.take 5).map Paper.id)
    (hbatch : mget batch pid = some txt) (htxt : txt ≠ "")
    (hentry : mget c.summaries p.id = some entry) :
    mget (prefetchWrite papers batch m) pid
      = some ({ level1 := some txt, level2 := none, level3 := none } : PaperSummary) ∧
    mget (fetchSummaryResolve c p 2 (Except.ok summary)).summaries p.id
      = some { entry with level2 := some summary } ∧
    mget (fetchSummaryResolve c p 3 (Except.ok summary)).summaries p.id
      = some { entry with level3 := some summary } := by
  refine ⟨?_, ?_, ?_⟩
  · unfold prefetchWrite
    exact prefetch_fold_mem batch pid txt hbatch htxt (papers.take 5) hmem m
  · simp [fetchSummaryResolve, hentry, mget_mset_self, setLevel]
  · simp [fetchSummaryResolve, hentry, mget_mset_self, setLevel]

/-- C10 witness: prefetching over an entry that already holds all
three levels leaves only the fresh level-1 text. -/
theorem prefetch_replaces_fetch_merges_witness :
    mget (prefetchWrite samplePapers3 [("p0", "fresh")]
      [("p0", { level1 := some "a", level2 := some "b", level3 := some "c" })])
      "p0" = some ({ level1 := some "fresh", level2 := none, level3 := none } : PaperSummary) :=
  (prefetch_replaces_fetch_merges samplePapers3 [("p0", "fresh")]
    [("p0", { level1 := some "a", level2 := some "b", level3 := some "c" })]
    "p0" "fresh"
    { summaries := [("p0", { level1 := some "a", level2 := some "b", level3 := some "c" })]
      loading := false
      inFlight := [] }
    (mkPaper "p0" "Paper Zero" "abs0") "s2"
    { level1 := some "a", level2 := some "b", level3 := some "c" }
    (by decide) (by decide) (by decide) (by decide)).1

end SwipeInterface

namespace Home

/-- Helper: a save whose paper id is already in the favorites is a
no-op apart from the informational toast. -/
theorem handleSuperlike_dup (st : HomeState) (paper : Paper) (level : Nat)
    (b : String) (now : Nat)
    (h : st.favorites.any (fun p => p.id = paper.id) = true) :
    handleSuperlike st paper level (Except.ok b) now =
      { st with toasts := st.toasts ++ [("Already in favorites!", ToastType.info)] } := by
  unfold handleSuperlike
  simp [h]

/-- Helper: a save of a new paper id appends exactly one
`SavedPaper` to the favorites. -/
theorem handleSuperlike_new_favorites (st : HomeState) (paper : Paper) (level : Nat)
    (b : String) (now : Nat)
    (h : st.favorites.any (fun p => p.id = paper.id) = false) :
    (handleSuperlike st paper level (Except.ok b) now).favorites =
      st.favorites ++
        [{ paper := paper, savedAt := now, bibtex := b, currentLevel := level }] := by
  unfold handleSuperlike
  simp only [h, Bool.false_eq_true, if_false]
  split <;> rfl

/-- C8: for any favorites collection holding at most one entry with
the given paper id, saving the same paper twice (both citation calls
succeeding) leaves exactly one entry with that id; the second call
leaves the persisted collection unchanged and appends the
informational "Already in favorites!" notice, not an error. -/
theorem duplicate_save_single_entry (st : HomeState) (paper : Paper)
    (l1 l2 : Nat) (b1 b2 : String) (n1 n2 : Nat)
    (hdup : (st.favorites.filter (fun p => p.id = paper.id)).length ≤ 1) :
    ((handleSuperlike (handleSuperlike st paper l1 (Except.ok b1) n1) paper l2
        (Except.ok b2) n2).favorites.filter (fun p => p.id = paper.id)).length = 1 ∧
    (handleSuperlike (handleSuperlike st paper l1 (Except.ok b1) n1) paper l2
        (Except.ok b2) n2).favorites =
      (handleSuperlike st paper l1 (Except.ok b1) n1).favorites ∧
    (handleSuperlike (handleSuperlike st paper l1 (Except.ok b1) n1) paper l2
        (Except.ok b2) n2).toasts =
      (handleSuperlike st paper l1 (Except.ok b1) n1).toasts ++
        [("Already in favorites!", ToastType.info)] := by
  cases hany : st.favorites.any (fun p => p.id = paper.id) with
  | true =>
      have h1 := handleSuperlike_dup st paper l1 b1 n1 hany
      have hany2 : (handleSuperlike st paper l1 (Except.ok b1) n1).favorites.any
          (fun p => p.id = paper.id) = true := by
        rw [h1]
        exact hany
      have h2 := handleSuperlike_dup (handleSuperlike st paper l1 (Except.ok b1) n1)
        paper l2 b2 n2 hany2
      refine ⟨?_, by rw [h2], by rw [h2]⟩
      rw [h2, h1]
      have hex : ∃ x ∈ st.favorites, x.id = paper.id := by
        simpa [List.any_eq_true] using hany
      obtain ⟨x, hx, hxid⟩ := hex
      have hmem : x ∈ st.favorites.filter (fun p => p.id = paper.id) := by
        rw [List.mem_filter]
        exact ⟨hx, by simpa using hxid⟩
      have hne : st.favorites.filter (fun p => p.id = paper.id) ≠ [] :=
        fun hnil => by rw [hnil] at hmem; exact absurd hmem (List.not_mem_nil x)
      have hge : 1 ≤ (st.favorites.filter (fun p => p.id = paper.id)).length :=
        List.length_pos.mpr hne
      show (st.favorites.filter (fun p => p.id = paper.id)).length = 1
      omega
  | false =>
      have h1 := handleSuperlike_new_favorites st paper l1 b1 n1 hany
      have hany2 : (handleSuperlike st paper l1 (Except.ok b1) n1).favorites.any
          (fun p => p.id = paper.id) = true := by
        rw [h1, List.any_append, hany]
        simp [SavedPaper.id]
      have h2 := handleSuperlike_dup (handleSuperlike st paper l1 (Except.ok b1) n1)
        paper l2 b2 n2 hany2
      refine ⟨?_, by rw [h2], by rw [h2]⟩
      rw [h2, h1, List.filter_append]
      have hf : st.favorites.filter (fun p => p.id = paper.id) = [] := by
        rw [List.filter_eq_nil_iff]
        intro a ha
        intro hcontra
        have : st.favorites.any (fun p => p.id = paper.id) = true :=
          List.any_eq_true.mpr ⟨a, ha, hcontra⟩
        rw [hany] at this
        exact Bool.noConfusion this
      rw [hf]
      simp [SavedPaper.id]

end Home

namespace Home

/-- The session's initial persistence state: no favorites, no toasts,
no events. -/
def initHome : HomeState :=
  { favorites := [], toasts := [], favAddedEvents := 0, confettiFirst := 0,
    confettiNormal := 0 }

/-- C8 witness: saving `paperA` twice into an empty collection leaves
one entry and an informational second toast. -/
theorem duplicate_save_single_entry_witness :
    ((handleSuperlike (handleSuperlike initHome SwipeInterface.paperA 2
        (Except.ok "bib1") 5) SwipeInterface.paperA 3 (Except.ok "bib2")
        6).favorites.filter
          (fun p => p.id = SwipeInterface.paperA.id)).length = 1 ∧
    (handleSuperlike (handleSuperlike initHome SwipeInterface.paperA 2
        (Except.ok "bib1") 5) SwipeInterface.paperA 3 (Except.ok "bib2")
        6).favorites =
      (handleSuperlike initHome SwipeInterface.paperA 2
        (Except.ok "bib1") 5).favorites ∧
    (handleSuperlike (handleSuperlike initHome SwipeInterface.paperA 2
        (Except.ok "bib1") 5) SwipeInterface.paperA 3 (Except.ok "bib2")
        6).toasts =
      (handleSuperlike initHome SwipeInterface.paperA 2
        (Except.ok "bib1") 5).toasts ++
        [("Already in favorites!", ToastType.info)] :=
  duplicate_save_single_entry initHome SwipeInterface.paperA 2 3 "bib1" "bib2"
    5 6 (by decide)

end Home

namespace Chat

/-- Helper: the persist effect never changes the in-memory list. -/
theorem persistEffect_messages (x : ChatState) :
    (persistEffect x).messages = x.messages := by
  unfold persistEffect
  split <;> rfl

/-- Helper: the persist effect writes a non-empty list to storage. -/
theorem persistEffect_storage_of_nonempty (x : ChatState) (h : x.messages ≠ []) :
    (persistEffect x).storage = some x.messages := by
  unfold persistEffect
  rw [if_pos]
  exact List.length_pos.mpr h

/-- Helper: closed form of a failed send — the in-memory log returns
to its previous contents, the error is recorded, and storage holds
whatever the final persist effect produces after the optimistic
append persisted the user message. -/
theorem handleSendMessage_error (c : ChatState) (input : String) (now : Nat)
    (e : String) (hload : c.isLoading = false) (hin : jsTrim input ≠ "") :
    handleSendMessage c input now (Except.error e) =
      persistEffect
        { messages := c.messages, error := some e, isLoading := false,
          storage := some (c.messages ++
            [{ role := Role.user, content := jsTrim input, timestamp := now }]) } := by
  have hguard : ¬ (jsTrim input = "" ∨ c.isLoading = true) := by
    rw [hload]
    simp [hin]
  unfold handleSendMessage
  rw [if_neg hguard]
  have hB : persistEffect
      { c with
          messages := c.messages ++
            [{ role := Role.user, content := jsTrim input, timestamp := now }]
          error := none
          isLoading := true } =
      { messages := c.messages ++
          [{ role := Role.user, content := jsTrim input, timestamp := now }]
        error := none
        isLoading := true
        storage := some (c.messages ++
          [{ role := Role.user, content := jsTrim input, timestamp := now }]) } := by
    unfold persistEffect
    rw [if_pos]
    · simp
  dsimp only
  rw [hB]
  simp [List.dropLast_concat]

/-- C9 (amended): a failed send rolls the in-memory conversation log
back to exactly its previous contents; and when that previous log was
non-empty the persisted copy is rewritten to it as well, so memory
and storage stay consistent for every non-first message. -/
theorem failed_send_rolls_back_memory (c : ChatState) (input : String)
    (now : Nat) (e : String)
    (hload : c.isLoading = false) (hin : jsTrim input ≠ "") :
    (handleSendMessage c input now (Except.error e)).messages = c.messages ∧
    (c.messages ≠ [] →
      (handleSendMessage c input now (Except.error e)).storage = some c.messages) := by
  rw [handleSendMessage_error c input now e hload hin]
  constructor
  · rw [persistEffect_messages]
  · intro hne
    exact persistEffect_storage_of_nonempty _ hne

/-- C9 (counterexample): when the failed message is the first of the
conversation, the rollback empties the in-memory log, but the persist
effect skips empty lists, so localStorage keeps the optimistically
persisted user message: reloading the conversation yields an orphaned,
unanswered user entry — the claimed both-or-neither property fails
for the conversation log as persisted. -/
theorem first_message_failure_persists_orphan :
    (handleSendMessage
      { messages := [], storage := none, isLoading := false, error := none }
      "hi" 7 (Except.error "boom")).messages = [] ∧
    (handleSendMessage
      { messages := [], storage := none, isLoading := false, error := none }
      "hi" 7 (Except.error "boom")).storage =
      some [{ role := Role.user, content := "hi", timestamp := 7 }] ∧
    loadConversation (handleSendMessage
      { messages := [], storage := none, isLoading := false, error := none }
      "hi" 7 (Except.error "boom")) =
      [{ role := Role.user, content := "hi", timestamp := 7 }] := by
  refine ⟨by decide, by decide, by decide⟩

end Chat

namespace Chat

/-- C9 witness: a failed non-first send (one prior exchange in the
log) rolls back both the in-memory and the persisted log. -/
theorem failed_send_rolls_back_memory_witness :
    (handleSendMessage
      { messages := [{ role := Role.user, content := "q", timestamp := 1 },
                     { role := Role.assistant, content := "a", timestamp := 2 }],
        storage := some [{ role := Role.user, content := "q", timestamp := 1 },
                         { role := Role.assistant, content := "a", timestamp := 2 }],
        isLoading := false, error := none }
      "hi" 7 (Except.error "boom")).messages =
      [{ role := Role.user, content := "q", timestamp := 1 },
       { role := Role.assistant, content := "a", timestamp := 2 }] ∧
    ([{ role := Role.user, content := "q", timestamp := 1 },
      { role := Role.assistant, content := "a", timestamp := 2 }] ≠
        ([] : List ChatMessage) →
      (handleSendMessage
        { messages := [{ role := Role.user, content := "q", timestamp := 1 },
                       { role := Role.assistant, content := "a", timestamp := 2 }],
          storage := some [{ role := Role.user, content := "q", timestamp := 1 },
                           { role := Role.assistant, content := "a", timestamp := 2 }],
          isLoading := false, error := none }
        "hi" 7 (Except.error "boom")).storage =
        some [{ role := Role.user, content := "q", timestamp := 1 },
              { role := Role.assistant, content := "a", timestamp := 2 }]) :=
  failed_send_rolls_back_memory
    { messages := [{ role := Role.user, content := "q", timestamp := 1 },
                   { role := Role.assistant, content := "a", timestamp := 2 }],
      storage := some [{ role := Role.user, content := "q", timestamp := 1 },
                       { role := Role.assistant, content := "a", timestamp := 2 }],
      isLoading := false, error := none }
    "hi" 7 "boom" (by decide) (by decide)

end Chat
